import Mathlib

/-!
Shallow embedding of the wallex-go client library (package wallex) and proofs
about its specification claims.

Modelling conventions:
* JSON payloads are modelled at the level of decoded JSON values (`Json`),
  abstracting the byte-level text parsing done by encoding/json.
* float64 values are modelled as exact rationals (`GoFloat` with a `finite ℚ`
  constructor plus infinities and a NaN marker, mirroring the value space of
  strconv.ParseFloat).  The finite range and binary rounding of float64 are
  idealized away; no verified claim depends on them.
* `parseFloat` models the decimal and special (inf/nan) forms of the grammar
  accepted by strconv.ParseFloat.  Hexadecimal mantissas and digit-separating
  underscores, which the stdlib also accepts, are not modelled.
* The HTTP transport is an explicit function parameter
  (`HTTPRequest → TransportResult`); the package-level http.Get used by
  `Candles` is passed to it explicitly as `globalGet`.
-/

namespace Wallex

/-- A decoded JSON value.  Object fields keep their textual order. -/
inductive Json where
  | null
  | bool (b : Bool)
  | num (q : ℚ)
  | str (s : String)
  | arr (elems : List Json)
  | obj (fields : List (String × Json))

/-- Value space of strconv.ParseFloat: a finite value (exact rational model),
a signed infinity, or NaN. -/
inductive GoFloat where
  | finite (q : ℚ)
  | inf (neg : Bool)
  | nan
deriving DecidableEq, Repr

/-- Decimal digit character test used by the parser model. -/
def isDigitCh (ch : Char) : Bool :=
  ch == '0' || ch == '1' || ch == '2' || ch == '3' || ch == '4' ||
  ch == '5' || ch == '6' || ch == '7' || ch == '8' || ch == '9'

/-- Value of a decimal digit character (0 for non-digits). -/
def digitVal (ch : Char) : ℕ :=
  if ch == '1' then 1 else if ch == '2' then 2 else if ch == '3' then 3
  else if ch == '4' then 4 else if ch == '5' then 5 else if ch == '6' then 6
  else if ch == '7' then 7 else if ch == '8' then 8 else if ch == '9' then 9
  else 0

/-- Numeric value of a string of decimal digit characters. -/
def digitsVal (ds : List Char) : ℕ :=
  ds.foldl (fun a ch => 10 * a + digitVal ch) 0

/-- Longest digit run at the head of the character list, and the remainder. -/
def takeDigits : List Char → List Char × List Char
  | [] => ([], [])
  | ch :: cs =>
    if isDigitCh ch then
      match takeDigits cs with
      | (ds, rest) => (ch :: ds, rest)
    else ([], ch :: cs)

/-- Model of the byte-wise lower-casing (c OR 0x20) used by the stdlib when
matching the special values inf/infinity/nan case-insensitively. -/
def lowerByte (ch : Char) : Char := Char.ofNat (ch.toNat ||| 32)

/-- Case-insensitive whole-list match against a lower-case pattern. -/
def ciMatches : List Char → List Char → Bool
  | [], [] => true
  | ch :: cs, p :: ps => (lowerByte ch == p) && ciMatches cs ps
  | _, _ => false

/-- Matches the remaining characters against inf/infinity (case-insensitive),
as the stdlib does after an optional sign. -/
def infRest (cs : List Char) (neg : Bool) : Option GoFloat :=
  if ciMatches cs ['i', 'n', 'f'] || ciMatches cs ['i', 'n', 'f', 'i', 'n', 'i', 't', 'y']
  then some (GoFloat.inf neg) else none

/-- Matches nan (case-insensitive); a sign is not permitted before nan. -/
def nanRest (cs : List Char) : Option GoFloat :=
  if ciMatches cs ['n', 'a', 'n'] then some GoFloat.nan else none

/-- Model of the special-value branch of strconv.ParseFloat. -/
def specialCase (cs : List Char) : Option GoFloat :=
  match cs with
  | [] => none
  | ch :: rest =>
    if ch == '+' then infRest rest false
    else if ch == '-' then infRest rest true
    else if ch == 'i' || ch == 'I' then infRest cs false
    else if ch == 'n' || ch == 'N' then nanRest cs
    else none

/-- Exponent digits with optional sign; the whole remainder must be consumed. -/
def expDigits (cs : List Char) (neg : Bool) : Option ℤ :=
  match takeDigits cs with
  | (ds, rest) =>
    if ds.isEmpty then none
    else if rest.isEmpty then
      some (if neg then -(digitsVal ds : ℤ) else (digitsVal ds : ℤ))
    else none

/-- Exponent part after the e/E marker. -/
def parseExpPart (cs : List Char) : Option ℤ :=
  match cs with
  | [] => none
  | ch :: rest =>
    if ch == '+' then expDigits rest false
    else if ch == '-' then expDigits rest true
    else expDigits cs false

/-- Syntactic outcome of the decimal-literal scan, mirroring the data
returned by the readFloat helper of the stdlib: the mantissa digits as a
natural number, the number of digits after the point, and the explicit
exponent when one was written. -/
structure DecParts where
  mant : ℕ
  fracLen : ℕ
  exp : Option ℤ
deriving DecidableEq, Repr

/-- Mantissa digits (integer and fraction part) followed by an optional
exponent; mirrors the readFloat acceptance conditions. -/
def mantExp (ip fp : List Char) (r : List Char) : Option DecParts :=
  if ip.isEmpty && fp.isEmpty then none
  else
    let mant := digitsVal (ip ++ fp)
    match r with
    | [] => some ⟨mant, fp.length, none⟩
    | e :: rest =>
      if e == 'e' || e == 'E' then
        match parseExpPart rest with
        | some ex => some ⟨mant, fp.length, some ex⟩
        | none => none
      else none

/-- Unsigned decimal mantissa+exponent scan. -/
def parseDec (cs : List Char) : Option DecParts :=
  match takeDigits cs with
  | (ip, r1) =>
    match r1 with
    | ch :: rest =>
      if ch == '.' then
        match takeDigits rest with
        | (fp, r2) => mantExp ip fp r2
      else mantExp ip [] (ch :: rest)
    | [] => mantExp ip [] []

/-- Syntactic outcome of a full ParseFloat scan: a special value, or a sign
together with the decimal-literal parts. -/
inductive FloatParse where
  | special (f : GoFloat)
  | decimal (neg : Bool) (p : DecParts)
deriving DecidableEq, Repr

/-- Syntactic phase of strconv.ParseFloat: special values, then an
optionally signed decimal literal; the whole string must be consumed. -/
def parseFloatRaw (s : String) : Option FloatParse :=
  match specialCase s.data with
  | some f => some (FloatParse.special f)
  | none =>
    match s.data with
    | [] => none
    | ch :: rest =>
      if ch == '+' then (parseDec rest).map (FloatParse.decimal false)
      else if ch == '-' then (parseDec rest).map (FloatParse.decimal true)
      else (parseDec (ch :: rest)).map (FloatParse.decimal false)

/-- Exact value of a scanned decimal literal. -/
def decValue (p : DecParts) : ℚ :=
  let m : ℚ := (p.mant : ℚ) / (10 : ℚ) ^ p.fracLen
  match p.exp with
  | none => m
  | some e => if 0 ≤ e then m * (10 : ℚ) ^ e.toNat else m / (10 : ℚ) ^ (-e).toNat

/-- Model of strconv.ParseFloat (64-bit): the syntactic scan followed by
conversion of the decimal parts to their (exact) value. -/
def parseFloat (s : String) : Option GoFloat :=
  (parseFloatRaw s).map fun r =>
    match r with
    | FloatParse.special f => f
    | FloatParse.decimal neg p =>
      GoFloat.finite (if neg then -(decValue p) else decValue p)

/-- The Number type of the source: a string-backed decimal value. -/
structure Number where
  val : String
deriving DecidableEq, Repr

/-- IsUndefined returns true if n is undefined or not a valid number
(source: `return n == ""`). -/
def Number.IsUndefined (n : Number) : Bool := n.val == ""

/-- Float converts n to a float value
(source: `f, _ := strconv.ParseFloat(string(n), 64); return f`; a failed
parse yields the zero value). -/
def Number.Float (n : Number) : GoFloat :=
  match parseFloat n.val with
  | some f => f
  | none => GoFloat.finite 0

/-- Decimal digit character for a digit value below ten. -/
def digitCh : ℕ → Char
  | 0 => '0'
  | 1 => '1'
  | 2 => '2'
  | 3 => '3'
  | 4 => '4'
  | 5 => '5'
  | 6 => '6'
  | 7 => '7'
  | 8 => '8'
  | 9 => '9'
  | _ => '*'

/-- Decimal digit characters of a natural number, most significant first.
The fuel argument bounds the recursion depth. -/
def natDigitChars : ℕ → ℕ → List Char
  | 0, _ => []
  | fuel + 1, n =>
    if n < 10 then [digitCh n]
    else natDigitChars fuel (n / 10) ++ [digitCh (n % 10)]

/-- Decimal digit string of a natural number. -/
def natStr (n : ℕ) : List Char := natDigitChars (n + 1) n

/-- Fractional part of the fixed-point format: six digits, zero padded. -/
def fracChars (m : ℕ) : List Char :=
  List.replicate (6 - (natStr m).length) '0' ++ natStr m

/-- Rounds a non-negative rational to the nearest integer, ties to even
(the rounding applied by strconv.FormatFloat for an explicit precision). -/
def roundHalfEven (x : ℚ) : ℤ :=
  let n := ⌊x⌋
  let r := x - (n : ℚ)
  if r < 1 / 2 then n
  else if 1 / 2 < r then n + 1
  else if n % 2 = 0 then n else n + 1

/-- Absolute value of the argument scaled to six decimal places and rounded
to an integer. -/
def scaled6 (q : ℚ) : ℕ :=
  (roundHalfEven ((if q < 0 then -q else q) * 1000000)).toNat

/-- Model of `fmt.Sprintf("%f", f)`: fixed-point formatting with six decimal
digits, minus sign for negative values. -/
def fmtF6 (q : ℚ) : String :=
  String.mk ((if q < 0 then ['-'] else []) ++
    natStr (scaled6 q / 1000000) ++ '.' :: fracChars (scaled6 q % 1000000))

/-- Model of `json.Unmarshal(data, &s)` for a string target: a JSON string
decodes to its contents; JSON null leaves the zero value in place and
reports no error; every other shape is a type error. -/
def goUnmarshalString : Json → Option String
  | Json.str s => some s
  | Json.null => some ""
  | _ => none

/-- Model of `json.Unmarshal(data, &f)` for a float64 target: a JSON number
decodes to its value; JSON null leaves the zero value in place and reports
no error; every other shape is a type error. -/
def goUnmarshalFloat : Json → Option ℚ
  | Json.num q => some q
  | Json.null => some 0
  | _ => none

/-- UnmarshalJSON of Number (source lines 24-39 of the number file):
reset to empty, try a string decode (kept verbatim only when it parses as a
float), otherwise try a float decode (stored via the %f format), otherwise
keep the empty sentinel; every path returns a nil error (modelled as the
`none` second component). -/
def Number.UnmarshalJSON (data : Json) : Number × Option String :=
  match goUnmarshalString data with
  | some s =>
    match parseFloat s with
    | some _ => (⟨s⟩, none)
    | none => (⟨""⟩, none)
  | none =>
    match goUnmarshalFloat data with
    | some f => (⟨fmtF6 f⟩, none)
    | none => (⟨""⟩, none)

/-! ## Client model -/

/-- An outgoing HTTP request, as the client constructs it.  The body of a
POST request is carried as the decoded JSON value it serializes. -/
structure HTTPRequest where
  method : String
  url : String
  headers : List (String × String)
  body : Option Json

/-- Outcome of handing a request to the transport: a network-level failure
with its cause, or a response with a status code and decoded JSON body. -/
inductive TransportResult where
  | failure (cause : String)
  | success (status : ℕ) (body : Json)

/-- The HTTP transport (the http.Client collaborator). -/
def Transport := HTTPRequest → TransportResult

/-- The closed set of service errors.  The source represents each category
as a fixed pointer singleton (ErrBadRequest etc.); constructor equality
models pointer identity.  requestFailed models wrapRequestError, which
creates a fresh error wrapping the given cause. -/
inductive ClientError where
  | missingAPIKey
  | badRequest
  | unauthorized
  | forbidden
  | notFound
  | unknown
  | requestFailed (cause : String)
deriving DecidableEq, Repr

/-- Result of a call that may also panic (index out of range). -/
inductive GoResult (α : Type) where
  | ok (val : α)
  | err (e : ClientError)
  | panics

/-- Source: errNonOKResponse maps a non-200 status code to one of the five
fixed error values by exact match. -/
def errNonOKResponse (code : ℕ) : ClientError :=
  if code = 400 then ClientError.badRequest
  else if code = 401 then ClientError.unauthorized
  else if code = 403 then ClientError.forbidden
  else if code = 404 then ClientError.notFound
  else ClientError.unknown

/-- Base URL constant of the source. -/
def baseURL : String := "https://api.wallex.ir"

/-- Fixed authentication header name of the source. -/
def apiKeyHeader : String := "x-api-key"

/-- The Client struct: a transport handle and the stored credential. -/
structure Client where
  httpClient : Transport
  apiKey : String

/-- ClientOptions: an optional API key and an optional transport. -/
structure ClientOptions where
  APIKey : String
  HTTPClient : Option Transport

/-- Source of New (lines 51-62): start from the zero Client; when the
configured APIKey is empty, read the WALLEX_API_KEY environment variable;
default the transport to http.DefaultClient when none is given.  The
process environment (os.Getenv) and the package-level default client are
passed explicitly. -/
def New (env : String → String) (defaultClient : Transport) (opt : ClientOptions) : Client :=
  { apiKey := if opt.APIKey = "" then env "WALLEX_API_KEY" else "",
    httpClient :=
      match opt.HTTPClient with
      | some hc => hc
      | none => defaultClient }

/-- First value bound to the key in an object field list. -/
def lookupField : List (String × Json) → String → Option Json
  | [], _ => none
  | (k, v) :: rest, key => if k == key then some v else lookupField rest key

/-- Field of a JSON object, JSON null when absent (a missing field leaves
the zero value in place during decoding). -/
def objField (kvs : List (String × Json)) (key : String) : Json :=
  (lookupField kvs key).getD Json.null

/-- Whether a JSON object carries the key. -/
def jsonHasKey (j : Json) (key : String) : Bool :=
  match j with
  | Json.obj kvs => kvs.any fun kv => kv.fst == key
  | _ => false

/-- Value bound to the key in a JSON object. -/
def jsonGetKey (j : Json) (key : String) : Option Json :=
  match j with
  | Json.obj kvs => lookupField kvs key
  | _ => none

/-- Decoding a JSON value into a struct or map: an object gives its fields,
null leaves the zero value (no fields) and every other shape is an error. -/
def asObjFields : Json → Option (List (String × Json))
  | Json.obj kvs => some kvs
  | Json.null => some []
  | _ => none

/-- Decoding into a Go string field: null leaves the zero value. -/
def decodeGoString : Json → Option String
  | Json.str s => some s
  | Json.null => some ""
  | _ => none

/-- Decoding into a Go bool field: null leaves the zero value. -/
def decodeGoBool : Json → Option Bool
  | Json.bool b => some b
  | Json.null => some false
  | _ => none

/-- Decoding into a Go int64 field: only integral numbers are accepted;
null leaves the zero value. -/
def decodeGoInt : Json → Option ℤ
  | Json.num q => if q.den = 1 then some q.num else none
  | Json.null => some 0
  | _ => none

/-- Decoding the common `{"result": ...}` envelope, used for the endpoints
whose payload shape is not load-bearing for the verified claims: the
result field is returned as raw JSON. -/
def decodeResultField : Json → Option Json
  | Json.obj kvs => some (objField kvs "result")
  | Json.null => some Json.null
  | _ => none

/-- The Market struct of the source.  Only the symbol field participates in
the verified claims; the remaining twenty-odd data fields are not
modelled. -/
structure Market where
  symbol : String
deriving DecidableEq, Repr

/-- Decoding one value of the symbols map into a Market. -/
def decodeMarket : Json → Option Market
  | Json.obj kvs =>
    match lookupField kvs "symbol" with
    | some (Json.str s) => some ⟨s⟩
    | some Json.null => some ⟨""⟩
    | some _ => none
    | none => some ⟨""⟩
  | _ => none

/-- Decoding every entry of the symbols map, preserving entry order. -/
def decodeMarketEntries : List (String × Json) → Option (List (String × Market))
  | [] => some []
  | (k, v) :: rest =>
    match decodeMarket v, decodeMarketEntries rest with
    | some m, some ms => some ((k, m) :: ms)
    | _, _ => none

/-- Decoding the Markets response body
`{"result":{"symbols":{..sym..: Market}}}` into the symbol-keyed map
(modelled as an association list in entry order; Go map iteration order is
unspecified, and the claims only rely on the multiset of entries). -/
def decodeMarketsBody (body : Json) : Option (List (String × Market)) :=
  match asObjFields body with
  | none => none
  | some top =>
    match asObjFields (objField top "result") with
    | none => none
    | some res =>
      match asObjFields (objField res "symbols") with
      | none => none
      | some syms => decodeMarketEntries syms

/-- The Balance struct of the source (asset, faName, fiat, value, locked).
The two Number fields decode through the custom UnmarshalJSON, which never
fails. -/
structure Balance where
  asset : String
  faName : String
  fiat : Bool
  value : Number
  locked : Number
deriving DecidableEq, Repr

/-- Decoding one value of the balances map into a Balance. -/
def decodeBalance : Json → Option Balance
  | Json.obj kvs =>
    match decodeGoString (objField kvs "asset"), decodeGoString (objField kvs "faName"),
          decodeGoBool (objField kvs "fiat") with
    | some a, some fa, some fi =>
      some { asset := a, faName := fa, fiat := fi,
             value := (Number.UnmarshalJSON (objField kvs "value")).fst,
             locked := (Number.UnmarshalJSON (objField kvs "locked")).fst }
    | _, _, _ => none
  | _ => none

/-- Decoding every entry of the balances map, preserving entry order. -/
def decodeBalanceEntries : List (String × Json) → Option (List (String × Balance))
  | [] => some []
  | (k, v) :: rest =>
    match decodeBalance v, decodeBalanceEntries rest with
    | some b, some bs => some ((k, b) :: bs)
    | _, _ => none

/-- Decoding the Balances response body
`{"result":{"balances":{..asset..: Balance}}}` into the asset-keyed map. -/
def decodeBalancesBody (body : Json) : Option (List (String × Balance)) :=
  match asObjFields body with
  | none => none
  | some top =>
    match asObjFields (objField top "result") with
    | none => none
    | some res =>
      match asObjFields (objField res "balances") with
      | none => none
      | some bs => decodeBalanceEntries bs

/-- The Candle struct of the source.  The Go field Open is called opn here
because open is a Lean keyword; time.Time is abstracted to the unix
seconds it was constructed from (time.Unix(t, 0)). -/
structure Candle where
  timestamp : ℤ
  opn : Number
  high : Number
  low : Number
  cls : Number
  volume : Number
deriving DecidableEq, Repr

/-- The anonymous response struct of Candles: six parallel top-level
arrays. -/
structure CandlesBody where
  t : List ℤ
  o : List String
  h : List String
  l : List String
  c : List String
  v : List String
deriving DecidableEq, Repr

/-- Decoding a JSON array of integers (a null array is the zero value). -/
def decodeIntElems : List Json → Option (List ℤ)
  | [] => some []
  | x :: xs =>
    match decodeGoInt x, decodeIntElems xs with
    | some n, some ns => some (n :: ns)
    | _, _ => none

/-- Decoding into a []int64 field. -/
def decodeIntList : Json → Option (List ℤ)
  | Json.arr xs => decodeIntElems xs
  | Json.null => some []
  | _ => none

/-- Decoding a JSON array of strings (elements decode like string fields). -/
def decodeStrElems : List Json → Option (List String)
  | [] => some []
  | x :: xs =>
    match decodeGoString x, decodeStrElems xs with
    | some s, some ss => some (s :: ss)
    | _, _ => none

/-- Decoding into a []string field. -/
def decodeStrList : Json → Option (List String)
  | Json.arr xs => decodeStrElems xs
  | Json.null => some []
  | _ => none

/-- Decoding the Candles response body (the six parallel arrays are at top
level, not inside a result envelope). -/
def decodeCandlesBody (body : Json) : Option CandlesBody :=
  match asObjFields body with
  | none => none
  | some kvs =>
    match decodeIntList (objField kvs "t"), decodeStrList (objField kvs "o"),
          decodeStrList (objField kvs "h"), decodeStrList (objField kvs "l"),
          decodeStrList (objField kvs "c"), decodeStrList (objField kvs "v") with
    | some ts, some os, some hs, some ls, some cs, some vs =>
      some { t := ts, o := os, h := hs, l := ls, c := cs, v := vs }
    | _, _, _, _, _, _ => none

/-- One loop iteration of the candle-building loop: index i of every array.
The source indexes the five value arrays without a bounds check, so a
missing index is an out-of-range panic; here the access is the partial
getElem? and the panic surfaces as none.  The binds follow the evaluation
order of the source composite literal. -/
def candleAt (r : CandlesBody) (i : ℕ) : Option Candle :=
  (r.t[i]?).bind fun tv =>
  (r.o[i]?).bind fun ov =>
  (r.h[i]?).bind fun hv =>
  (r.l[i]?).bind fun lv =>
  (r.c[i]?).bind fun cv =>
  (r.v[i]?).map fun vv =>
  { timestamp := tv, opn := ⟨ov⟩, high := ⟨hv⟩, low := ⟨lv⟩, cls := ⟨cv⟩, volume := ⟨vv⟩ }

/-- Runs the loop body over the given indices; none models the panic. -/
def buildCandlesGo (r : CandlesBody) : List ℕ → Option (List Candle)
  | [] => some []
  | i :: rest =>
    match candleAt r i, buildCandlesGo r rest with
    | some cd, some cds => some (cd :: cds)
    | _, _ => none

/-- The candle-building loop of the source: one candle per element of t. -/
def buildCandles (r : CandlesBody) : Option (List Candle) :=
  buildCandlesGo r (List.range r.t.length)

/-- Plain key=value joining of query parameters.  Percent-escaping and the
alphabetical key sorting performed by url.Values.Encode are abstracted; no
verified claim depends on the query text. -/
def encodeQuery : List (String × String) → String
  | [] => ""
  | [(k, v)] => k ++ "=" ++ v
  | (k, v) :: rest => k ++ "=" ++ v ++ "&" ++ encodeQuery rest

/-- Decimal rendering of an int64 (strconv.FormatInt base 10). -/
def intStr (n : ℤ) : String :=
  (if n < 0 then "-" else "") ++ String.mk (natStr n.natAbs)

/-- Message used when wrapping a JSON decode failure (wrapRequestError is
applied to the decoder error; the cause text is abstracted). -/
def decodeFailure : ClientError := ClientError.requestFailed "json decode error"

/-!
Endpoint methods.  Each mirrors its source function line by line: optional
credential guard, request construction, transport call, status check,
body decode.  http.NewRequest cannot fail for these fixed methods and
URLs, so its error branch is omitted.  For endpoints whose payload is not
load-bearing for any verified claim, the decoded result is the raw
`result` envelope field.
-/

/-- Markets (source lines 107-133): public GET, decode the symbols map and
flatten it to the list of its values. -/
def Client.Markets (c : Client) : Except ClientError (List Market) :=
  match c.httpClient { method := "GET", url := baseURL ++ "/v1/markets", headers := [], body := none } with
  | TransportResult.failure cause => Except.error (ClientError.requestFailed cause)
  | TransportResult.success status body =>
    if status ≠ 200 then Except.error (errNonOKResponse status)
    else
      match decodeMarketsBody body with
      | none => Except.error decodeFailure
      | some syms => Except.ok (syms.map Prod.snd)

/-- Currencies (source lines 175-194): public GET, result array returned
as raw JSON. -/
def Client.Currencies (c : Client) : Except ClientError Json :=
  match c.httpClient { method := "GET", url := baseURL ++ "/v1/currencies/stats", headers := [], body := none } with
  | TransportResult.failure cause => Except.error (ClientError.requestFailed cause)
  | TransportResult.success status body =>
    if status ≠ 200 then Except.error (errNonOKResponse status)
    else
      match decodeResultField body with
      | none => Except.error decodeFailure
      | some r => Except.ok r

/-- MarketOrders (source lines 204-229): public GET with a symbol query;
the ask/bid payload is returned as the raw result envelope. -/
def Client.MarketOrders (c : Client) (symbol : String) : Except ClientError Json :=
  match c.httpClient { method := "GET",
                       url := baseURL ++ "/v1/depth?" ++ encodeQuery [("symbol", symbol)],
                       headers := [], body := none } with
  | TransportResult.failure cause => Except.error (ClientError.requestFailed cause)
  | TransportResult.success status body =>
    if status ≠ 200 then Except.error (errNonOKResponse status)
    else
      match decodeResultField body with
      | none => Except.error decodeFailure
      | some r => Except.ok r

/-- MarketTrades (source lines 241-265): public GET with a symbol query;
the latestTrades payload is returned as the raw result envelope. -/
def Client.MarketTrades (c : Client) (symbol : String) : Except ClientError Json :=
  match c.httpClient { method := "GET",
                       url := baseURL ++ "/v1/trades?" ++ encodeQuery [("symbol", symbol)],
                       headers := [], body := none } with
  | TransportResult.failure cause => Except.error (ClientError.requestFailed cause)
  | TransportResult.success status body =>
    if status ≠ 200 then Except.error (errNonOKResponse status)
    else
      match decodeResultField body with
      | none => Except.error decodeFailure
      | some r => Except.ok r

set_option linter.unusedVariables false in
/-- Candles (source lines 288-329).  The source issues this request through
package-level http.Get, not through c.httpClient; the package-level
default client is therefore an explicit globalGet parameter here.  The
request carries no authentication header.  After a successful decode the
unchecked indexing loop runs (GoResult.panics models the out-of-range
panic). -/
def Client.Candles (c : Client) (globalGet : Transport) (symbol resolution : String)
    (fromT toT : ℤ) : GoResult (List Candle) :=
  match globalGet { method := "GET",
                    url := baseURL ++ "/v1/udf/history?" ++ encodeQuery
                      [("symbol", symbol), ("resolution", resolution),
                       ("from", intStr fromT), ("to", intStr toT)],
                    headers := [], body := none } with
  | TransportResult.failure cause => GoResult.err (ClientError.requestFailed cause)
  | TransportResult.success status body =>
    if status ≠ 200 then GoResult.err (errNonOKResponse status)
    else
      match decodeCandlesBody body with
      | none => GoResult.err decodeFailure
      | some r =>
        match buildCandles r with
        | none => GoResult.panics
        | some cs => GoResult.ok cs

/-- Profile (source lines 527-555): authenticated GET; the profile payload
is returned as the raw result envelope. -/
def Client.Profile (c : Client) : Except ClientError Json :=
  if c.apiKey = "" then Except.error ClientError.missingAPIKey
  else
    match c.httpClient { method := "GET", url := baseURL ++ "/v1/account/profile",
                         headers := [(apiKeyHeader, c.apiKey)], body := none } with
    | TransportResult.failure cause => Except.error (ClientError.requestFailed cause)
    | TransportResult.success status body =>
      if status ≠ 200 then Except.error (errNonOKResponse status)
      else
        match decodeResultField body with
        | none => Except.error decodeFailure
        | some r => Except.ok r

/-- Balances (source lines 567-597): authenticated GET; returns the decoded
asset-keyed map unchanged. -/
def Client.Balances (c : Client) : Except ClientError (List (String × Balance)) :=
  if c.apiKey = "" then Except.error ClientError.missingAPIKey
  else
    match c.httpClient { method := "GET", url := baseURL ++ "/v1/account/balances",
                         headers := [(apiKeyHeader, c.apiKey)], body := none } with
    | TransportResult.failure cause => Except.error (ClientError.requestFailed cause)
    | TransportResult.success status body =>
      if status ≠ 200 then Except.error (errNonOKResponse status)
      else
        match decodeBalancesBody body with
        | none => Except.error decodeFailure
        | some bs => Except.ok bs

/-- FeeLevels (source lines 617-645): authenticated GET; raw result
envelope. -/
def Client.FeeLevels (c : Client) : Except ClientError Json :=
  if c.apiKey = "" then Except.error ClientError.missingAPIKey
  else
    match c.httpClient { method := "GET", url := baseURL ++ "/v1/account/fee",
                         headers := [(apiKeyHeader, c.apiKey)], body := none } with
    | TransportResult.failure cause => Except.error (ClientError.requestFailed cause)
    | TransportResult.success status body =>
      if status ≠ 200 then Except.error (errNonOKResponse status)
      else
        match decodeResultField body with
        | none => Except.error decodeFailure
        | some r => Except.ok r

/-- BankingCards (source lines 657-685): authenticated GET; raw result
envelope. -/
def Client.BankingCards (c : Client) : Except ClientError Json :=
  if c.apiKey = "" then Except.error ClientError.missingAPIKey
  else
    match c.httpClient { method := "GET", url := baseURL ++ "/v1/account/card-numbers",
                         headers := [(apiKeyHeader, c.apiKey)], body := none } with
    | TransportResult.failure cause => Except.error (ClientError.requestFailed cause)
    | TransportResult.success status body =>
      if status ≠ 200 then Except.error (errNonOKResponse status)
      else
        match decodeResultField body with
        | none => Except.error decodeFailure
        | some r => Except.ok r

/-- BankAccounts (source lines 702-730): authenticated GET; raw result
envelope. -/
def Client.BankAccounts (c : Client) : Except ClientError Json :=
  if c.apiKey = "" then Except.error ClientError.missingAPIKey
  else
    match c.httpClient { method := "GET", url := baseURL ++ "/v1/account/ibans",
                         headers := [(apiKeyHeader, c.apiKey)], body := none } with
    | TransportResult.failure cause => Except.error (ClientError.requestFailed cause)
    | TransportResult.success status body =>
      if status ≠ 200 then Except.error (errNonOKResponse status)
      else
        match decodeResultField body with
        | none => Except.error decodeFailure
        | some r => Except.ok r

/-- OrderParams (source lines 749-756).  The Go field Type is called type
here as in the source; only client_id carries the omitempty option. -/
structure OrderParams where
  symbol : String
  type : String
  side : String
  price : Number
  quantity : Number
  clientID : String
deriving DecidableEq, Repr

/-- Model of json.Marshal on *OrderParams: fields serialize in declaration
order; Number fields (plain string type, no custom marshaller) serialize
as JSON strings; client_id is dropped when empty because of omitempty. -/
def OrderParams.marshalJSON (p : OrderParams) : Json :=
  Json.obj
    ([("symbol", Json.str p.symbol), ("type", Json.str p.type),
      ("side", Json.str p.side), ("price", Json.str p.price.val),
      ("quantity", Json.str p.quantity.val)] ++
     (if p.clientID = "" then [] else [("client_id", Json.str p.clientID)]))

/-- PlaceOrder (source lines 777-806): authenticated POST with the
serialized params as body; raw result envelope. -/
def Client.PlaceOrder (c : Client) (p : OrderParams) : Except ClientError Json :=
  if c.apiKey = "" then Except.error ClientError.missingAPIKey
  else
    match c.httpClient { method := "POST", url := baseURL ++ "/v1/account/orders",
                         headers := [(apiKeyHeader, c.apiKey)],
                         body := some p.marshalJSON } with
    | TransportResult.failure cause => Except.error (ClientError.requestFailed cause)
    | TransportResult.success status body =>
      if status ≠ 200 then Except.error (errNonOKResponse status)
      else
        match decodeResultField body with
        | none => Except.error decodeFailure
        | some r => Except.ok r

/-- CancelOrder (source lines 809-833): authenticated DELETE with a query
identifier; the body is not decoded on success. -/
def Client.CancelOrder (c : Client) (clientOrderID : String) : Except ClientError Unit :=
  if c.apiKey = "" then Except.error ClientError.missingAPIKey
  else
    match c.httpClient { method := "DELETE",
                         url := baseURL ++ "/v1/account/orders?" ++ encodeQuery [("clientOrderId", clientOrderID)],
                         headers := [(apiKeyHeader, c.apiKey)], body := none } with
    | TransportResult.failure cause => Except.error (ClientError.requestFailed cause)
    | TransportResult.success status _ =>
      if status ≠ 200 then Except.error (errNonOKResponse status)
      else Except.ok ()

/-- Order (source lines 836-864): authenticated GET with the identifier in
the path; raw result envelope. -/
def Client.Order (c : Client) (clientOrderID : String) : Except ClientError Json :=
  if c.apiKey = "" then Except.error ClientError.missingAPIKey
  else
    match c.httpClient { method := "GET", url := baseURL ++ "/v1/account/orders/" ++ clientOrderID,
                         headers := [(apiKeyHeader, c.apiKey)], body := none } with
    | TransportResult.failure cause => Except.error (ClientError.requestFailed cause)
    | TransportResult.success status body =>
      if status ≠ 200 then Except.error (errNonOKResponse status)
      else
        match decodeResultField body with
        | none => Except.error decodeFailure
        | some r => Except.ok r

/-- OpenOrders (source lines 868-903): authenticated GET; the symbol query
parameter is added only when non-empty; raw result envelope. -/
def Client.OpenOrders (c : Client) (symbol : String) : Except ClientError Json :=
  if c.apiKey = "" then Except.error ClientError.missingAPIKey
  else
    match c.httpClient { method := "GET",
                         url := baseURL ++ "/v1/account/openOrders?" ++
                           encodeQuery (if symbol = "" then [] else [("symbol", symbol)]),
                         headers := [(apiKeyHeader, c.apiKey)], body := none } with
    | TransportResult.failure cause => Except.error (ClientError.requestFailed cause)
    | TransportResult.success status body =>
      if status ≠ 200 then Except.error (errNonOKResponse status)
      else
        match decodeResultField body with
        | none => Except.error decodeFailure
        | some r => Except.ok r

/-- Trades (source lines 921-959): authenticated GET; symbol and side query
parameters are added only when non-empty; raw result envelope. -/
def Client.Trades (c : Client) (symbol side : String) : Except ClientError Json :=
  if c.apiKey = "" then Except.error ClientError.missingAPIKey
  else
    match c.httpClient { method := "GET",
                         url := baseURL ++ "/v1/account/trades?" ++
                           encodeQuery ((if symbol = "" then [] else [("symbol", symbol)]) ++
                             (if side = "" then [] else [("side", side)])),
                         headers := [(apiKeyHeader, c.apiKey)], body := none } with
    | TransportResult.failure cause => Except.error (ClientError.requestFailed cause)
    | TransportResult.success status body =>
      if status ≠ 200 then Except.error (errNonOKResponse status)
      else
        match decodeResultField body with
        | none => Except.error decodeFailure
        | some r => Except.ok r

/-! ## Helper lemmas about the decimal scanner and the formatter -/

theorem isDigitCh_digitCh {n : ℕ} (h : n < 10) : isDigitCh (digitCh n) = true := by
  interval_cases n <;> decide

theorem digit_cases {ch : Char} (h : isDigitCh ch = true) :
    ch = '0' ∨ ch = '1' ∨ ch = '2' ∨ ch = '3' ∨ ch = '4' ∨
    ch = '5' ∨ ch = '6' ∨ ch = '7' ∨ ch = '8' ∨ ch = '9' := by
  simp only [isDigitCh, Bool.or_eq_true, beq_iff_eq] at h
  tauto

theorem digit_not_plus {ch : Char} (h : isDigitCh ch = true) : (ch == '+') = false := by
  rcases digit_cases h with rfl | rfl | rfl | rfl | rfl | rfl | rfl | rfl | rfl | rfl <;> rfl

theorem digit_not_minus {ch : Char} (h : isDigitCh ch = true) : (ch == '-') = false := by
  rcases digit_cases h with rfl | rfl | rfl | rfl | rfl | rfl | rfl | rfl | rfl | rfl <;> rfl

theorem infRest_digit {ch : Char} (rest : List Char) (b : Bool) (h : isDigitCh ch = true) :
    infRest (ch :: rest) b = none := by
  rcases digit_cases h with rfl | rfl | rfl | rfl | rfl | rfl | rfl | rfl | rfl | rfl <;> rfl

theorem specialCase_digit {ch : Char} (rest : List Char) (h : isDigitCh ch = true) :
    specialCase (ch :: rest) = none := by
  rcases digit_cases h with rfl | rfl | rfl | rfl | rfl | rfl | rfl | rfl | rfl | rfl <;> rfl

theorem natDigitChars_digits :
    ∀ (fuel n : ℕ), ∀ ch ∈ natDigitChars fuel n, isDigitCh ch = true := by
  intro fuel
  induction fuel with
  | zero => intro n ch h; simp [natDigitChars] at h
  | succ f ih =>
    intro n ch h
    rw [natDigitChars] at h
    by_cases hn : n < 10
    · rw [if_pos hn] at h
      rw [List.mem_singleton.mp h]
      exact isDigitCh_digitCh hn
    · rw [if_neg hn] at h
      rcases List.mem_append.mp h with h1 | h2
      · exact ih _ ch h1
      · rw [List.mem_singleton.mp h2]
        exact isDigitCh_digitCh (Nat.mod_lt _ (by norm_num))

theorem natStr_digits (n : ℕ) : ∀ ch ∈ natStr n, isDigitCh ch = true :=
  natDigitChars_digits (n + 1) n

theorem natStr_ne_nil (n : ℕ) : natStr n ≠ [] := by
  rw [natStr, natDigitChars]
  by_cases hn : n < 10
  · simp [hn]
  · simp [hn]

theorem fracChars_digits (m : ℕ) : ∀ ch ∈ fracChars m, isDigitCh ch = true := by
  intro ch h
  rcases List.mem_append.mp h with h1 | h2
  · rw [List.eq_of_mem_replicate h1]; rfl
  · exact natStr_digits m ch h2

/-- Condition on the remainder after a digit run: empty, or starting with a
non-digit. -/
def headNotDigit : List Char → Prop
  | [] => True
  | ch :: _ => isDigitCh ch = false

theorem takeDigits_split (ds rest : List Char) (h1 : ∀ ch ∈ ds, isDigitCh ch = true)
    (h2 : headNotDigit rest) : takeDigits (ds ++ rest) = (ds, rest) := by
  induction ds with
  | nil =>
    simp only [List.nil_append]
    cases rest with
    | nil => rfl
    | cons ch tl =>
      simp only [headNotDigit] at h2
      simp [takeDigits, h2]
  | cons ch tl ih =>
    have hch : isDigitCh ch = true := h1 ch (List.mem_cons_self ch tl)
    simp only [List.cons_append, takeDigits, hch, if_true, List.append_eq]
    rw [ih fun x hx => h1 x (List.mem_cons_of_mem ch hx)]

theorem parseDec_fmt (ds fs : List Char) (hne : ds ≠ [])
    (hds : ∀ ch ∈ ds, isDigitCh ch = true) (hfs : ∀ ch ∈ fs, isDigitCh ch = true) :
    parseDec (ds ++ '.' :: fs) = some ⟨digitsVal (ds ++ fs), fs.length, none⟩ := by
  have h1 : takeDigits (ds ++ '.' :: fs) = (ds, '.' :: fs) :=
    takeDigits_split ds ('.' :: fs) hds (by rfl)
  have h2 : takeDigits fs = (fs, []) := by
    have h := takeDigits_split fs [] hfs trivial
    simpa using h
  have hde : ds.isEmpty = false := by
    cases ds with
    | nil => exact absurd rfl hne
    | cons a l => rfl
  simp only [parseDec, h1, h2, mantExp, hde, Bool.false_and, Bool.false_eq_true,
    if_false, reduceCtorEq]
  rfl

theorem parseFloat_fmtF6 (q : ℚ) : (parseFloat (fmtF6 q)).isSome = true := by
  have hds := natStr_digits (scaled6 q / 1000000)
  have hfs := fracChars_digits (scaled6 q % 1000000)
  obtain ⟨c0, tl, hcons⟩ : ∃ c0 tl, natStr (scaled6 q / 1000000) = c0 :: tl := by
    cases hd : natStr (scaled6 q / 1000000) with
    | nil => exact absurd hd (natStr_ne_nil _)
    | cons a l => exact ⟨a, l, rfl⟩
  have hc0 : isDigitCh c0 = true := hds c0 (hcons ▸ List.mem_cons_self c0 tl)
  have hdec : parseDec (natStr (scaled6 q / 1000000) ++ '.' :: fracChars (scaled6 q % 1000000)) =
      some ⟨digitsVal (natStr (scaled6 q / 1000000) ++ fracChars (scaled6 q % 1000000)),
            (fracChars (scaled6 q % 1000000)).length, none⟩ :=
    parseDec_fmt _ _ (natStr_ne_nil _) hds hfs
  rw [parseFloat]
  by_cases hq : q < 0
  · have hdata : (fmtF6 q).data =
        '-' :: (natStr (scaled6 q / 1000000) ++ '.' :: fracChars (scaled6 q % 1000000)) := by
      rw [fmtF6, if_pos hq]
      rfl
    have hspec : specialCase ((fmtF6 q).data) = none := by
      rw [hdata, hcons]
      show specialCase ('-' :: c0 :: (tl ++ '.' :: fracChars (scaled6 q % 1000000))) = none
      simp only [specialCase]
      norm_num
      exact infRest_digit _ _ hc0
    rw [parseFloatRaw, hspec, hdata]
    norm_num [hdec]
    split <;> rfl
  · have hdata : (fmtF6 q).data =
        natStr (scaled6 q / 1000000) ++ '.' :: fracChars (scaled6 q % 1000000) := by
      rw [fmtF6, if_neg hq]
      rfl
    have hspec : specialCase ((fmtF6 q).data) = none := by
      rw [hdata, hcons, List.cons_append]
      exact specialCase_digit _ hc0
    rw [parseFloatRaw, hspec, hdata, hcons, List.cons_append]
    simp only [digit_not_plus hc0, digit_not_minus hc0, Bool.false_eq_true, if_false]
    rw [← List.cons_append, ← hcons, hdec]
    rfl

theorem parseFloat_empty : parseFloat "" = none := by decide

theorem parseFloat_some_ne {s : String} {v : GoFloat} (h : parseFloat s = some v) :
    s ≠ "" := by
  intro hs
  rw [hs, parseFloat_empty] at h
  exact Option.noConfusion h

/-! ## Claims about the Number type -/

/-- C2: for every JSON payload that is a quoted string whose contents parse
as a valid 64-bit floating-point number, Number.UnmarshalJSON stores that
string verbatim (with a nil error), so that afterwards IsUndefined() is
false and Float() equals the parsed numeric value of the string. -/
theorem C2_string_payload_stored_verbatim (s : String) (v : GoFloat)
    (h : parseFloat s = some v) :
    Number.UnmarshalJSON (Json.str s) = (⟨s⟩, none) ∧
    (Number.mk s).IsUndefined = false ∧ (Number.mk s).Float = v := by
  refine ⟨?_, ?_, ?_⟩
  · simp only [Number.UnmarshalJSON, goUnmarshalString, h]
  · have hs := parseFloat_some_ne h
    simp [Number.IsUndefined, hs]
  · simp only [Number.Float, h]

/-- Witness for C2 at the concrete payload string 100.5. -/
theorem C2_witness :
    parseFloat "100.5" = some (GoFloat.finite (201 / 2)) ∧
    Number.UnmarshalJSON (Json.str "100.5") = (⟨"100.5"⟩, none) ∧
    (Number.mk "100.5").IsUndefined = false ∧
    (Number.mk "100.5").Float = GoFloat.finite (201 / 2) := by
  have hr : parseFloatRaw "100.5" = some (FloatParse.decimal false ⟨1005, 1, none⟩) := by
    decide
  have hp : parseFloat "100.5" = some (GoFloat.finite (201 / 2)) := by
    have hv : decValue ⟨1005, 1, none⟩ = (201 / 2 : ℚ) := by norm_num [decValue]
    rw [parseFloat, hr]
    simp [hv]
  have h := C2_string_payload_stored_verbatim "100.5" _ hp
  exact ⟨hp, h.1, h.2.1, h.2.2⟩

/-- C3: a bare-number payload stores the six-digit fixed-point format of the
number; every other payload (null, boolean, object, array, or a string that
fails numeric parsing) stores the empty string, so IsUndefined() is true
and Float() returns zero; and UnmarshalJSON signals no error on any
payload. -/
theorem C3_nonstring_payloads :
    (∀ q : ℚ, Number.UnmarshalJSON (Json.num q) = (⟨fmtF6 q⟩, none)) ∧
    Number.UnmarshalJSON Json.null = (⟨""⟩, none) ∧
    (∀ b, Number.UnmarshalJSON (Json.bool b) = (⟨""⟩, none)) ∧
    (∀ kvs, Number.UnmarshalJSON (Json.obj kvs) = (⟨""⟩, none)) ∧
    (∀ xs, Number.UnmarshalJSON (Json.arr xs) = (⟨""⟩, none)) ∧
    (∀ s, parseFloat s = none → Number.UnmarshalJSON (Json.str s) = (⟨""⟩, none)) ∧
    (∀ d, (Number.UnmarshalJSON d).snd = none) ∧
    (Number.mk "").IsUndefined = true ∧
    (Number.mk "").Float = GoFloat.finite 0 := by
  refine ⟨fun q => rfl, rfl, fun b => rfl, fun kvs => rfl, fun xs => rfl, ?_, ?_, rfl, rfl⟩
  · intro s h
    simp only [Number.UnmarshalJSON, goUnmarshalString, h]
  · intro d
    cases d with
    | null => rfl
    | bool b => rfl
    | num q => rfl
    | arr xs => rfl
    | obj kvs => rfl
    | str s =>
      cases h : parseFloat s with
      | none => simp only [Number.UnmarshalJSON, goUnmarshalString, h]
      | some v => simp only [Number.UnmarshalJSON, goUnmarshalString, h]

/-- Witness for C3 at concrete payloads: the non-numeric string n/a and the
bare number 5/2. -/
theorem C3_witness :
    parseFloat "n/a" = none ∧
    Number.UnmarshalJSON (Json.str "n/a") = (⟨""⟩, none) ∧
    Number.UnmarshalJSON (Json.num (5 / 2)) = (⟨"2.500000"⟩, none) ∧
    (Number.mk "").IsUndefined = true := by
  have hn : parseFloat "n/a" = none := by
    have : parseFloatRaw "n/a" = none := by decide
    rw [parseFloat, this]
    rfl
  have h6 : fmtF6 (5 / 2) = "2.500000" := by
    have hs : scaled6 (5 / 2) = 2500000 := by
      norm_num [scaled6, roundHalfEven]
      decide
    have hneg : ¬ ((5 / 2 : ℚ) < 0) := by norm_num
    rw [fmtF6, hs, if_neg hneg]
    decide
  refine ⟨hn, C3_nonstring_payloads.2.2.2.2.2.1 "n/a" hn, ?_, C3_nonstring_payloads.2.2.2.2.2.2.2.1⟩
  rw [C3_nonstring_payloads.1 (5 / 2), h6]

/-- C7: invariant of the Number type under every construction path of
UnmarshalJSON: the stored string is either empty (the absent sentinel) or
parses successfully as a floating-point number, and construction never
signals an error. -/
theorem C7_number_invariant (d : Json) :
    ((Number.UnmarshalJSON d).fst.val = "" ∨
      (parseFloat (Number.UnmarshalJSON d).fst.val).isSome = true) ∧
    (Number.UnmarshalJSON d).snd = none := by
  cases d with
  | null => exact ⟨Or.inl rfl, rfl⟩
  | bool b => exact ⟨Or.inl rfl, rfl⟩
  | arr xs => exact ⟨Or.inl rfl, rfl⟩
  | obj kvs => exact ⟨Or.inl rfl, rfl⟩
  | num q => exact ⟨Or.inr (parseFloat_fmtF6 q), rfl⟩
  | str s =>
    cases h : parseFloat s with
    | none =>
      refine ⟨Or.inl ?_, ?_⟩ <;> simp only [Number.UnmarshalJSON, goUnmarshalString, h]
    | some v =>
      constructor
      · right
        simp only [Number.UnmarshalJSON, goUnmarshalString, h, Option.isSome_some]
      · simp only [Number.UnmarshalJSON, goUnmarshalString, h]

/-! ## Claims about the client -/

/-- C1 (code bug in New): a ClientOptions with a non-empty APIKey does NOT
get its credential stored — New only assigns apiKey inside the
`opt.APIKey == ""` branch, so an explicitly configured key leaves the
stored credential empty and every authenticated call fails with the
missing-api-key error instead of attaching the x-api-key header.  The
environment fallback branch, by contrast, does store the variable.  This
theorem evaluates New at the failing input APIKey = secret with an empty
environment. -/
theorem C1_new_drops_explicit_apiKey :
    (New (fun _ => "") (fun _ => TransportResult.success 200 Json.null)
        { APIKey := "secret", HTTPClient := none }).apiKey = "" ∧
    Client.Profile (New (fun _ => "") (fun _ => TransportResult.success 200 Json.null)
        { APIKey := "secret", HTTPClient := none }) = Except.error ClientError.missingAPIKey ∧
    (New (fun v => if v = "WALLEX_API_KEY" then "env-key" else "")
        (fun _ => TransportResult.success 200 Json.null)
        { APIKey := "", HTTPClient := none }).apiKey = "env-key" :=
  ⟨rfl, rfl, rfl⟩

/-- C4: every authenticated method of a client whose stored credential is
empty returns the missing-api-key error.  The client (and so its
transport) is universally quantified and the conclusion does not depend on
it, which expresses that the transport is never invoked. -/
theorem C4_missing_key_guard (c : Client) (h : c.apiKey = "") :
    Client.Profile c = Except.error ClientError.missingAPIKey ∧
    Client.Balances c = Except.error ClientError.missingAPIKey ∧
    Client.FeeLevels c = Except.error ClientError.missingAPIKey ∧
    Client.BankingCards c = Except.error ClientError.missingAPIKey ∧
    Client.BankAccounts c = Except.error ClientError.missingAPIKey ∧
    (∀ p, Client.PlaceOrder c p = Except.error ClientError.missingAPIKey) ∧
    (∀ oid, Client.CancelOrder c oid = Except.error ClientError.missingAPIKey) ∧
    (∀ oid, Client.Order c oid = Except.error ClientError.missingAPIKey) ∧
    (∀ sym, Client.OpenOrders c sym = Except.error ClientError.missingAPIKey) ∧
    (∀ sym side, Client.Trades c sym side = Except.error ClientError.missingAPIKey) := by
  refine ⟨?_, ?_, ?_, ?_, ?_, fun p => ?_, fun oid => ?_, fun oid => ?_, fun sym => ?_,
    fun sym side => ?_⟩ <;>
    simp [Client.Profile, Client.Balances, Client.FeeLevels, Client.BankingCards,
      Client.BankAccounts, Client.PlaceOrder, Client.CancelOrder, Client.Order,
      Client.OpenOrders, Client.Trades, h]

/-- Witness for C4: a concrete keyless client with a live transport stub. -/
theorem C4_witness :
    Client.Profile { httpClient := fun _ => TransportResult.success 200 Json.null, apiKey := "" } =
      Except.error ClientError.missingAPIKey ∧
    Client.PlaceOrder { httpClient := fun _ => TransportResult.success 200 Json.null, apiKey := "" }
      { symbol := "BTCUSDT", type := "LIMIT", side := "BUY",
        price := ⟨"100"⟩, quantity := ⟨"1"⟩, clientID := "" } =
      Except.error ClientError.missingAPIKey := by
  have h := C4_missing_key_guard
    { httpClient := fun _ => TransportResult.success 200 Json.null, apiKey := "" } rfl
  exact ⟨h.1, h.2.2.2.2.2.1 _⟩

/-- C5: whenever the transport yields a response with a status other than
200, every client method returns the error produced by errNonOKResponse
for that status — independently of the response body, which is universally
quantified and absent from the conclusion — and errNonOKResponse maps
400/401/403/404 to the four named singletons and every other code to the
unknown error. -/
theorem C5_status_code_mapping (key : String) (status : ℕ) (body : Json)
    (hk : key ≠ "") (hs : status ≠ 200) :
    Client.Markets ⟨fun _ => TransportResult.success status body, key⟩ =
      Except.error (errNonOKResponse status) ∧
    Client.Currencies ⟨fun _ => TransportResult.success status body, key⟩ =
      Except.error (errNonOKResponse status) ∧
    (∀ sym, Client.MarketOrders ⟨fun _ => TransportResult.success status body, key⟩ sym =
      Except.error (errNonOKResponse status)) ∧
    (∀ sym, Client.MarketTrades ⟨fun _ => TransportResult.success status body, key⟩ sym =
      Except.error (errNonOKResponse status)) ∧
    (∀ (tr : Transport) sym res fr t0,
      Client.Candles ⟨tr, key⟩ (fun _ => TransportResult.success status body) sym res fr t0 =
        GoResult.err (errNonOKResponse status)) ∧
    Client.Profile ⟨fun _ => TransportResult.success status body, key⟩ =
      Except.error (errNonOKResponse status) ∧
    Client.Balances ⟨fun _ => TransportResult.success status body, key⟩ =
      Except.error (errNonOKResponse status) ∧
    Client.FeeLevels ⟨fun _ => TransportResult.success status body, key⟩ =
      Except.error (errNonOKResponse status) ∧
    Client.BankingCards ⟨fun _ => TransportResult.success status body, key⟩ =
      Except.error (errNonOKResponse status) ∧
    Client.BankAccounts ⟨fun _ => TransportResult.success status body, key⟩ =
      Except.error (errNonOKResponse status) ∧
    (∀ p, Client.PlaceOrder ⟨fun _ => TransportResult.success status body, key⟩ p =
      Except.error (errNonOKResponse status)) ∧
    (∀ oid, Client.CancelOrder ⟨fun _ => TransportResult.success status body, key⟩ oid =
      Except.error (errNonOKResponse status)) ∧
    (∀ oid, Client.Order ⟨fun _ => TransportResult.success status body, key⟩ oid =
      Except.error (errNonOKResponse status)) ∧
    (∀ sym, Client.OpenOrders ⟨fun _ => TransportResult.success status body, key⟩ sym =
      Except.error (errNonOKResponse status)) ∧
    (∀ sym side, Client.Trades ⟨fun _ => TransportResult.success status body, key⟩ sym side =
      Except.error (errNonOKResponse status)) ∧
    errNonOKResponse 400 = ClientError.badRequest ∧
    errNonOKResponse 401 = ClientError.unauthorized ∧
    errNonOKResponse 403 = ClientError.forbidden ∧
    errNonOKResponse 404 = ClientError.notFound ∧
    (∀ code, code ≠ 200 → code ≠ 400 → code ≠ 401 → code ≠ 403 → code ≠ 404 →
      errNonOKResponse code = ClientError.unknown) := by
  have hmap : ∀ code : ℕ, code ≠ 200 → code ≠ 400 → code ≠ 401 → code ≠ 403 → code ≠ 404 →
      errNonOKResponse code = ClientError.unknown := by
    intro code h0 h1 h2 h3 h4
    simp [errNonOKResponse, h1, h2, h3, h4]
  refine ⟨?_, ?_, fun sym => ?_, fun sym => ?_, fun tr sym res fr t0 => ?_, ?_, ?_, ?_, ?_, ?_,
    fun p => ?_, fun oid => ?_, fun oid => ?_, fun sym => ?_, fun sym side => ?_,
    rfl, rfl, rfl, rfl, hmap⟩ <;>
    simp [Client.Markets, Client.Currencies, Client.MarketOrders, Client.MarketTrades,
      Client.Candles, Client.Profile, Client.Balances, Client.FeeLevels, Client.BankingCards,
      Client.BankAccounts, Client.PlaceOrder, Client.CancelOrder, Client.Order,
      Client.OpenOrders, Client.Trades, hk, hs]

/-- Witness for C5: a concrete client receiving a 404 from the transport. -/
theorem C5_witness :
    Client.Markets ⟨fun _ => TransportResult.success 404 Json.null, "k"⟩ =
      Except.error ClientError.notFound ∧
    Client.Profile ⟨fun _ => TransportResult.success 404 Json.null, "k"⟩ =
      Except.error ClientError.notFound := by
  have h := C5_status_code_mapping "k" 404 Json.null (by decide) (by decide)
  exact ⟨h.1, h.2.2.2.2.2.1⟩

/-- C10: Candles issues its request through the package-level http.Get
(the globalGet parameter), never through the configured transport: two
clients that differ only in their configured transport behave identically
on Candles, and the response observed by Candles is the one produced by
the global transport. -/
theorem C10_candles_uses_global_get :
    (∀ (g t1 t2 : Transport) (key sym res : String) (fr t0 : ℤ),
      Client.Candles ⟨t1, key⟩ g sym res fr t0 = Client.Candles ⟨t2, key⟩ g sym res fr t0) ∧
    (∀ (t1 : Transport) (key sym res : String) (fr t0 : ℤ),
      Client.Candles ⟨t1, key⟩ (fun _ => TransportResult.success 404 Json.null) sym res fr t0 =
        GoResult.err ClientError.notFound) :=
  ⟨fun _ _ _ _ _ _ _ _ => rfl, fun _ _ _ _ _ _ => rfl⟩

/-- C9: on a 200 response whose body decodes as the symbols-map envelope,
Markets returns the list of the map's values (one Market per entry); on
the concrete one-entry BTCUSDT body it returns the one-element list; and
Balances returns the decoded asset-keyed map unchanged. -/
theorem C9_markets_flatten_balances_map :
    (∀ (key : String) (body : Json) (syms : List (String × Market)),
      decodeMarketsBody body = some syms →
      Client.Markets ⟨fun _ => TransportResult.success 200 body, key⟩ =
        Except.ok (syms.map Prod.snd)) ∧
    Client.Markets ⟨fun _ => TransportResult.success 200
        (Json.obj [("result", Json.obj [("symbols",
          Json.obj [("BTCUSDT", Json.obj [("symbol", Json.str "BTCUSDT")])])])]), ""⟩ =
      Except.ok [⟨"BTCUSDT"⟩] ∧
    (∀ (key : String) (body : Json) (bs : List (String × Balance)), key ≠ "" →
      decodeBalancesBody body = some bs →
      Client.Balances ⟨fun _ => TransportResult.success 200 body, key⟩ = Except.ok bs) := by
  refine ⟨fun key body syms h => ?_, rfl, fun key body bs hk h => ?_⟩
  · simp [Client.Markets, h]
  · simp [Client.Balances, hk, h]

/-- Witness for C9: the BTCUSDT markets body and a one-asset balances
body, decoded concretely. -/
theorem C9_witness :
    decodeMarketsBody (Json.obj [("result", Json.obj [("symbols",
        Json.obj [("BTCUSDT", Json.obj [("symbol", Json.str "BTCUSDT")])])])]) =
      some [("BTCUSDT", ⟨"BTCUSDT"⟩)] ∧
    Client.Markets ⟨fun _ => TransportResult.success 200
        (Json.obj [("result", Json.obj [("symbols",
          Json.obj [("BTCUSDT", Json.obj [("symbol", Json.str "BTCUSDT")])])])]), "k"⟩ =
      Except.ok [⟨"BTCUSDT"⟩] ∧
    Client.Balances ⟨fun _ => TransportResult.success 200
        (Json.obj [("result", Json.obj [("balances",
          Json.obj [("BTC", Json.obj [("asset", Json.str "BTC"), ("faName", Json.str "Bitcoin"),
            ("fiat", Json.bool false), ("value", Json.str "10"),
            ("locked", Json.str "0")])])])]), "k"⟩ =
      Except.ok [("BTC", { asset := "BTC", faName := "Bitcoin", fiat := false,
                           value := ⟨"10"⟩, locked := ⟨"0"⟩ })] := by
  have hd : decodeMarketsBody (Json.obj [("result", Json.obj [("symbols",
      Json.obj [("BTCUSDT", Json.obj [("symbol", Json.str "BTCUSDT")])])])]) =
      some [("BTCUSDT", ⟨"BTCUSDT"⟩)] := rfl
  have hb : decodeBalancesBody (Json.obj [("result", Json.obj [("balances",
      Json.obj [("BTC", Json.obj [("asset", Json.str "BTC"), ("faName", Json.str "Bitcoin"),
        ("fiat", Json.bool false), ("value", Json.str "10"),
        ("locked", Json.str "0")])])])]) =
      some [("BTC", { asset := "BTC", faName := "Bitcoin", fiat := false,
                      value := ⟨"10"⟩, locked := ⟨"0"⟩ })] := rfl
  exact ⟨hd, C9_markets_flatten_balances_map.1 "k" _ _ hd,
    C9_markets_flatten_balances_map.2.2 "k" _ _ (by decide) hb⟩

/-- C8 counterexample: PlaceOrder does not serialize only the non-empty
fields — an OrderParams with an empty Symbol still produces a body that
carries the symbol key (only client_id has the omitempty option). -/
theorem C8_counterexample :
    (OrderParams.mk "" "LIMIT" "BUY" ⟨"100"⟩ ⟨"1"⟩ "").symbol = "" ∧
    jsonHasKey (OrderParams.marshalJSON
      (OrderParams.mk "" "LIMIT" "BUY" ⟨"100"⟩ ⟨"1"⟩ "")) "symbol" = true :=
  ⟨rfl, rfl⟩

/-- C8 (amended): PlaceOrder serializes the symbol, type, side, price and
quantity fields unconditionally (empty or not) and only the client_id
field is omitted when empty; a non-empty ClientID is serialized under the
client_id key.  The first clause observes the request body through an
echoing transport: PlaceOrder returns exactly the body it sent. -/
theorem C8_placeorder_body (key : String) (p : OrderParams) (hk : key ≠ "") :
    Client.PlaceOrder
      { httpClient := fun req =>
          TransportResult.success 200 (Json.obj [("result", (req.body).getD Json.null)]),
        apiKey := key } p = Except.ok p.marshalJSON ∧
    jsonHasKey p.marshalJSON "symbol" = true ∧
    jsonHasKey p.marshalJSON "type" = true ∧
    jsonHasKey p.marshalJSON "side" = true ∧
    jsonHasKey p.marshalJSON "price" = true ∧
    jsonHasKey p.marshalJSON "quantity" = true ∧
    (p.clientID = "" → jsonHasKey p.marshalJSON "client_id" = false) ∧
    (p.clientID ≠ "" → jsonGetKey p.marshalJSON "client_id" = some (Json.str p.clientID)) := by
  obtain ⟨s, t, sd, pr, qt, cid⟩ := p
  by_cases hc : cid = ""
  · subst hc
    refine ⟨?_, rfl, rfl, rfl, rfl, rfl, fun _ => rfl, fun hne => absurd rfl hne⟩
    simp [Client.PlaceOrder, hk, decodeResultField, objField, lookupField]
  · refine ⟨?_, ?_, ?_, ?_, ?_, ?_, fun he => absurd he hc, fun _ => ?_⟩
    · simp [Client.PlaceOrder, hk, decodeResultField, objField, lookupField]
    all_goals simp [OrderParams.marshalJSON, jsonHasKey, jsonGetKey, lookupField, hc]

/-- Witness for C8 at a concrete order with an empty client identifier. -/
theorem C8_witness :
    Client.PlaceOrder
      { httpClient := fun req =>
          TransportResult.success 200 (Json.obj [("result", (req.body).getD Json.null)]),
        apiKey := "k" }
      { symbol := "BTCUSDT", type := "LIMIT", side := "BUY",
        price := ⟨"100"⟩, quantity := ⟨"1"⟩, clientID := "" } =
      Except.ok (OrderParams.marshalJSON
        { symbol := "BTCUSDT", type := "LIMIT", side := "BUY",
          price := ⟨"100"⟩, quantity := ⟨"1"⟩, clientID := "" }) ∧
    jsonHasKey (OrderParams.marshalJSON
      { symbol := "BTCUSDT", type := "LIMIT", side := "BUY",
        price := ⟨"100"⟩, quantity := ⟨"1"⟩, clientID := "" }) "client_id" = false := by
  have h := C8_placeorder_body "k"
    { symbol := "BTCUSDT", type := "LIMIT", side := "BUY",
      price := ⟨"100"⟩, quantity := ⟨"1"⟩, clientID := "" } (by decide)
  exact ⟨h.1, h.2.2.2.2.2.2.1 rfl⟩

/-! ## Claim C6: the candle-building loop -/

theorem buildCandlesGo_eq_map (r : CandlesBody) (f : ℕ → Candle) :
    ∀ idxs : List ℕ, (∀ i ∈ idxs, candleAt r i = some (f i)) →
      buildCandlesGo r idxs = some (idxs.map f) := by
  intro idxs
  induction idxs with
  | nil => intro _; rfl
  | cons i rest ih =>
    intro h
    have hi : candleAt r i = some (f i) := h i (List.mem_cons_self i rest)
    have hr : buildCandlesGo r rest = some (rest.map f) :=
      ih fun x hx => h x (List.mem_cons_of_mem i hx)
    simp [buildCandlesGo, hi, hr]

theorem buildCandlesGo_some_mem (r : CandlesBody) :
    ∀ (idxs : List ℕ) (cs : List Candle), buildCandlesGo r idxs = some cs →
      ∀ i ∈ idxs, (candleAt r i).isSome = true := by
  intro idxs
  induction idxs with
  | nil => intro cs _ i hi; simp at hi
  | cons j rest ih =>
    intro cs h i hi
    rw [buildCandlesGo] at h
    cases hj : candleAt r j with
    | none => rw [hj] at h; exact absurd h (by simp)
    | some cd =>
      rw [hj] at h
      cases hrest : buildCandlesGo r rest with
      | none => rw [hrest] at h; exact absurd h (by simp)
      | some cds =>
        rcases List.mem_cons.mp hi with rfl | hmem
        · rw [hj]; rfl
        · exact ih cds hrest i hmem

theorem candleAt_of_le (r : CandlesBody) (i : ℕ)
    (ho : r.t.length ≤ r.o.length) (hh : r.t.length ≤ r.h.length)
    (hl : r.t.length ≤ r.l.length) (hc : r.t.length ≤ r.c.length)
    (hv : r.t.length ≤ r.v.length) (hi : i < r.t.length) :
    candleAt r i = some { timestamp := (r.t[i]?).getD 0, opn := ⟨(r.o[i]?).getD ""⟩,
                          high := ⟨(r.h[i]?).getD ""⟩, low := ⟨(r.l[i]?).getD ""⟩,
                          cls := ⟨(r.c[i]?).getD ""⟩, volume := ⟨(r.v[i]?).getD ""⟩ } := by
  have h1 := List.getElem?_eq_getElem hi
  have h2 := List.getElem?_eq_getElem (Nat.lt_of_lt_of_le hi ho)
  have h3 := List.getElem?_eq_getElem (Nat.lt_of_lt_of_le hi hh)
  have h4 := List.getElem?_eq_getElem (Nat.lt_of_lt_of_le hi hl)
  have h5 := List.getElem?_eq_getElem (Nat.lt_of_lt_of_le hi hc)
  have h6 := List.getElem?_eq_getElem (Nat.lt_of_lt_of_le hi hv)
  rw [candleAt, h1, h2, h3, h4, h5, h6]
  simp

theorem candleAt_isSome_bounds (r : CandlesBody) (i : ℕ)
    (h : (candleAt r i).isSome = true) :
    i < r.o.length ∧ i < r.h.length ∧ i < r.l.length ∧ i < r.c.length ∧ i < r.v.length := by
  rw [candleAt] at h
  rw [Option.isSome_iff_exists] at h
  obtain ⟨cd, hcd⟩ := h
  simp only [Option.bind_eq_some, Option.map_eq_some'] at hcd
  obtain ⟨tv, htv, ov, hov, wv, hwv, lv, hlv, cv, hcv, vv, hvv, -⟩ := hcd
  exact ⟨(List.getElem?_eq_some.mp hov).1, (List.getElem?_eq_some.mp hwv).1,
    (List.getElem?_eq_some.mp hlv).1, (List.getElem?_eq_some.mp hcv).1,
    (List.getElem?_eq_some.mp hvv).1⟩

/-- C6: whenever each of the five value arrays is at least as long as the
timestamp array, the decoded candles response yields exactly one candle per
element of t, pairing index i of t with index i of each of the other five
arrays, and the Candles method returns that list; when any value array is
shorter than t, the unchecked index access in the loop is out of range (the
modelled panic), so the loop is total only under the length precondition. -/
theorem C6_candles_pairing :
    (∀ r : CandlesBody,
      r.t.length ≤ r.o.length → r.t.length ≤ r.h.length → r.t.length ≤ r.l.length →
      r.t.length ≤ r.c.length → r.t.length ≤ r.v.length →
      ∃ cs, buildCandles r = some cs ∧ cs.length = r.t.length ∧
        ∀ i, i < r.t.length →
          cs[i]? = some { timestamp := (r.t[i]?).getD 0, opn := ⟨(r.o[i]?).getD ""⟩,
                          high := ⟨(r.h[i]?).getD ""⟩, low := ⟨(r.l[i]?).getD ""⟩,
                          cls := ⟨(r.c[i]?).getD ""⟩, volume := ⟨(r.v[i]?).getD ""⟩ }) ∧
    (∀ r : CandlesBody,
      r.o.length < r.t.length ∨ r.h.length < r.t.length ∨ r.l.length < r.t.length ∨
      r.c.length < r.t.length ∨ r.v.length < r.t.length →
      buildCandles r = none) ∧
    (∀ (key sym res : String) (tr : Transport) (fr t0 : ℤ) (body : Json) (r : CandlesBody)
        (cs : List Candle),
      decodeCandlesBody body = some r → buildCandles r = some cs →
      Client.Candles ⟨tr, key⟩ (fun _ => TransportResult.success 200 body) sym res fr t0 =
        GoResult.ok cs) ∧
    (∀ (key sym res : String) (tr : Transport) (fr t0 : ℤ) (body : Json) (r : CandlesBody),
      decodeCandlesBody body = some r → buildCandles r = none →
      Client.Candles ⟨tr, key⟩ (fun _ => TransportResult.success 200 body) sym res fr t0 =
        GoResult.panics) := by
  refine ⟨?_, ?_, ?_, ?_⟩
  · intro r ho hh hl hc hv
    refine ⟨(List.range r.t.length).map (fun i =>
      { timestamp := (r.t[i]?).getD 0, opn := ⟨(r.o[i]?).getD ""⟩,
        high := ⟨(r.h[i]?).getD ""⟩, low := ⟨(r.l[i]?).getD ""⟩,
        cls := ⟨(r.c[i]?).getD ""⟩, volume := ⟨(r.v[i]?).getD ""⟩ }), ?_, ?_, ?_⟩
    · exact buildCandlesGo_eq_map r _ _ fun i hi =>
        candleAt_of_le r i ho hh hl hc hv (List.mem_range.mp hi)
    · simp
    · intro i hi
      simp [List.getElem?_map, List.getElem?_range, hi]
  · intro r hlt
    cases hb : buildCandles r with
    | none => rfl
    | some cs =>
      exfalso
      have hmem := buildCandlesGo_some_mem r (List.range r.t.length) cs hb
      have hi : r.t.length - 1 ∈ List.range r.t.length := List.mem_range.mpr (by omega)
      have hbnd := candleAt_isSome_bounds r (r.t.length - 1) (hmem _ hi)
      omega
  · intro key sym res tr fr t0 body r cs hd hb
    simp [Client.Candles, hd, hb]
  · intro key sym res tr fr t0 body r hd hb
    simp [Client.Candles, hd, hb]

/-- Witness for C6: a body whose value arrays are shorter than t panics,
and a well-formed one-candle body round-trips through the method. -/
theorem C6_witness :
    buildCandles { t := [100, 200], o := ["1"], h := ["1"], l := ["1"], c := ["1"], v := ["1"] } =
      none ∧
    Client.Candles ⟨fun _ => TransportResult.failure "unused", "k"⟩
      (fun _ => TransportResult.success 200 (Json.obj
        [("t", Json.arr [Json.num 100]), ("o", Json.arr [Json.str "1"]),
         ("h", Json.arr [Json.str "2"]), ("l", Json.arr [Json.str "3"]),
         ("c", Json.arr [Json.str "4"]), ("v", Json.arr [Json.str "5"])]))
      "BTCUSDT" "60" 0 0 = GoResult.ok
        [{ timestamp := 100, opn := ⟨"1"⟩, high := ⟨"2"⟩, low := ⟨"3"⟩,
           cls := ⟨"4"⟩, volume := ⟨"5"⟩ }] := by
  have hd : decodeCandlesBody (Json.obj
      [("t", Json.arr [Json.num 100]), ("o", Json.arr [Json.str "1"]),
       ("h", Json.arr [Json.str "2"]), ("l", Json.arr [Json.str "3"]),
       ("c", Json.arr [Json.str "4"]), ("v", Json.arr [Json.str "5"])]) =
      some { t := [100], o := ["1"], h := ["2"], l := ["3"], c := ["4"], v := ["5"] } := rfl
  have hb : buildCandles { t := [100], o := ["1"], h := ["2"], l := ["3"], c := ["4"], v := ["5"] } =
      some [{ timestamp := 100, opn := ⟨"1"⟩, high := ⟨"2"⟩, low := ⟨"3"⟩,
              cls := ⟨"4"⟩, volume := ⟨"5"⟩ }] := rfl
  exact ⟨C6_candles_pairing.2.1 _ (Or.inl (by decide)),
    C6_candles_pairing.2.2.1 "k" "BTCUSDT" "60" _ 0 0 _ _ _ hd hb⟩

end Wallex
